import Mathlib

/-!
Shallow embedding of the editing core of the Quirks editor (Rust sources:
`src/history.rs`, `src/buffer.rs`, `src/register.rs`, `src/search.rs`,
`src/cursor.rs`, `src/editor.rs`), together with theorems settling the
frozen claims about it.

Modelling conventions:
* The `ropey::Rope` text container is modelled as a `List Char`.  Ropey's
  editing primitives (`insert`, `insert_char`, `remove`) address the rope by
  *char* index and assert that the index is in bounds; `len_bytes` is the
  UTF-8 byte length.  We model the byte length with `Char.utf8Size`, and an
  out-of-bounds char index (a panic in ropey) as `Option.none` in the
  operations whose panics matter to the claims.
* Grapheme clusters are modelled as single `Char`s (the repository's
  `line_len` counts grapheme clusters; no input considered here contains a
  multi-code-point cluster).
* Rust's `usize` arithmetic in the places embedded here never overflows on
  the inputs involved, so `Nat` is used directly.
* File-system writes (`fs::write`) are abstracted by a boolean oracle
  `writeOk` passed to `Buffer.save`/`save_as`.
-/

namespace Quirks

/-- The text content of a rope: a list of chars, in document order. -/
abbrev Rope := List Char

namespace Rope

/-- `Rope::len_chars()`. -/
def lenChars (r : Rope) : Nat := r.length

/-- `Rope::len_bytes()`: total UTF-8 byte length. -/
def lenBytes (r : Rope) : Nat := (r.map Char.utf8Size).sum

/-- `Rope::len_lines()`: one more than the number of line breaks. -/
def lenLines (r : Rope) : Nat := (r.filter (fun c => c = '\n')).length + 1

/-- `Rope::line_to_char(i)`: char index of the start of line `i`.  For
`i = len_lines` this is `len_chars` (ropey allows it); the repository only
calls it with `i ≤ len_lines`, so larger arguments (a ropey panic) are
irrelevant and this total version returns `len_chars` for them. -/
def lineToChar : Rope → Nat → Nat
  | _, 0 => 0
  | [], _ + 1 => 0
  | c :: rest, i + 1 =>
      if c = '\n' then 1 + lineToChar rest i else 1 + lineToChar rest (i + 1)

/-- `Rope::line(i)` as the list of chars of line `i`, including its trailing
newline when one exists (ropey's `RopeSlice` for a line keeps it). -/
def lineAt (r : Rope) (i : Nat) : List Char :=
  (r.take (lineToChar r (i + 1))).drop (lineToChar r i)

/-- `Rope::insert(char_idx, text)`; `none` models ropey's out-of-bounds
panic (`char_idx > len_chars`). -/
def insertAt (r : Rope) (charIdx : Nat) (text : List Char) : Option Rope :=
  if charIdx ≤ r.length then some (r.take charIdx ++ text ++ r.drop charIdx)
  else none

/-- `Rope::remove(start..end)`; `none` models ropey's panic when
`start > end` or `end > len_chars`. -/
def removeRange (r : Rope) (start stop : Nat) : Option Rope :=
  if start ≤ stop ∧ stop ≤ r.length then some (r.take start ++ r.drop stop)
  else none

end Rope

/-! ## History (`src/history.rs`) -/

/-- `MAX_HISTORY_SIZE` in `history.rs`. -/
def MAX_HISTORY_SIZE : Nat := 1000

/-- A snapshot of the buffer state (`struct Snapshot`). -/
structure Snapshot where
  content : Rope
  cursor_line : Nat
  cursor_col : Nat
deriving DecidableEq, Repr

/-- Undo/redo history manager (`struct History`); the `Vec` stacks grow at
the end of the lists. -/
structure History where
  undo_stack : List Snapshot
  redo_stack : List Snapshot
  current_content : Option Rope
deriving DecidableEq, Repr

namespace History

/-- `History::new()`. -/
def new : History := ⟨[], [], none⟩

/-- `History::init(content, cursor_line, cursor_col)`: clears both stacks,
sets the change-detection content, and pushes the base snapshot. -/
def init (_h : History) (content : Rope) (cursor_line cursor_col : Nat) :
    History :=
  { undo_stack := [⟨content, cursor_line, cursor_col⟩]
    redo_stack := []
    current_content := some content }

/-- `History::record(content, cursor_line, cursor_col)`: clears the redo
stack, returns unchanged (apart from that clear) when `content` equals the
tracked current content, otherwise pushes a snapshot and evicts the oldest
entry (`Vec::remove(0)`) once the stack exceeds `MAX_HISTORY_SIZE`. -/
def record (h : History) (content : Rope) (cursor_line cursor_col : Nat) :
    History :=
  let h1 : History := { h with redo_stack := [] }
  let isNoop : Bool :=
    match h1.current_content with
    | some current =>
        Rope.lenBytes content == Rope.lenBytes current && content == current
    | none => false
  if isNoop then h1
  else
    let pushed := h1.undo_stack ++ [⟨content, cursor_line, cursor_col⟩]
    let limited := if pushed.length > MAX_HISTORY_SIZE then pushed.drop 1
                   else pushed
    { h1 with undo_stack := limited, current_content := some content }

/-- `History::undo(current_content, cursor_line, cursor_col)`: needs at
least two stacked states; pushes the passed-in current state onto the redo
stack, pops (and discards) the top of the undo stack, and returns the new
top.  Returns the restored state together with the mutated history. -/
def undo (h : History) (current_content : Rope)
    (cursor_line cursor_col : Nat) :
    Option (Rope × Nat × Nat) × History :=
  if h.undo_stack.length ≤ 1 then (none, h)
  else
    let redo' := h.redo_stack ++ [⟨current_content, cursor_line, cursor_col⟩]
    let undo' := h.undo_stack.dropLast
    match undo'.getLast? with
    | some snapshot =>
        (some (snapshot.content, snapshot.cursor_line, snapshot.cursor_col),
         { undo_stack := undo', redo_stack := redo'
           current_content := some snapshot.content })
    | none =>
        (none, { h with undo_stack := undo', redo_stack := redo' })

/-- `History::redo()`: pops the most recent redo entry, re-pushes it onto
the undo stack and returns it. -/
def redo (h : History) : Option (Rope × Nat × Nat) × History :=
  match h.redo_stack.getLast? with
  | some snapshot =>
      (some (snapshot.content, snapshot.cursor_line, snapshot.cursor_col),
       { undo_stack := h.undo_stack ++ [snapshot]
         redo_stack := h.redo_stack.dropLast
         current_content := some snapshot.content })
  | none => (none, h)

/-- `History::can_undo()`. -/
def can_undo (h : History) : Bool := h.undo_stack.length > 1

/-- `History::can_redo()`. -/
def can_redo (h : History) : Bool := !h.redo_stack.isEmpty

end History

/-! ## Buffer (`src/buffer.rs`) -/

/-- Result of a save operation: `Ok(())` or an IO error. -/
inductive SaveResult where
  | ok
  | ioError
deriving DecidableEq, Repr

/-- A text buffer backed by a rope (`struct Buffer`).  The file path is
kept abstract as a string. -/
structure Buffer where
  rope : Rope
  file_path : Option String
  modified : Bool
  history : History
deriving DecidableEq, Repr

namespace Buffer

/-- `Buffer::new()`. -/
def new : Buffer :=
  { rope := [], file_path := none, modified := false
    history := History.new.init [] 0 0 }

/-- `Buffer::save()`: writes only when a file path exists; the write
outcome is the oracle `writeOk`.  With no path nothing happens and the
result is `Ok(())`. -/
def save (b : Buffer) (writeOk : Bool) : SaveResult × Buffer :=
  match b.file_path with
  | some _ => if writeOk then (.ok, { b with modified := false })
              else (.ioError, b)
  | none => (.ok, b)

/-- `Buffer::line_count()`. -/
def line_count (b : Buffer) : Nat := max (Rope.lenLines b.rope) 1

/-- `Buffer::len()`: byte length. -/
def len (b : Buffer) : Nat := Rope.lenBytes b.rope

/-- Strip every trailing `'\n'` (Rust `trim_end_matches('\n')`). -/
def trimEndNl (l : List Char) : List Char :=
  (l.reverse.dropWhile (fun c => c = '\n')).reverse

/-- `Buffer::line(idx)`: line text without its trailing newline; empty for
an out-of-range index. -/
def line (b : Buffer) (line_idx : Nat) : List Char :=
  if line_idx ≥ Rope.lenLines b.rope then []
  else trimEndNl (Rope.lineAt b.rope line_idx)

/-- `Buffer::line_len(idx)`: line length in grapheme clusters, modelled as
the char count of the newline-stripped line. -/
def line_len (b : Buffer) (line_idx : Nat) : Nat :=
  if line_idx ≥ Rope.lenLines b.rope then 0
  else (trimEndNl (Rope.lineAt b.rope line_idx)).length

/-- `Buffer::insert(byte_pos, text)`: delegates to ropey's `insert`, which
interprets the position as a *char* index; `none` models the panic. -/
def insert (b : Buffer) (byte_pos : Nat) (text : List Char) : Option Buffer :=
  (Rope.insertAt b.rope byte_pos text).map
    (fun r => { b with rope := r, modified := true })

/-- `Buffer::insert_char(byte_pos, ch)`. -/
def insert_char (b : Buffer) (byte_pos : Nat) (ch : Char) : Option Buffer :=
  insert b byte_pos [ch]

/-- `Buffer::delete(start, end)`: only acts when `start < end` and
`end ≤ len_bytes`; then calls ropey's char-indexed `remove`, whose
out-of-bounds panic is `none`. -/
def delete (b : Buffer) (start stop : Nat) : Option Buffer :=
  if start < stop ∧ stop ≤ Rope.lenBytes b.rope then
    (Rope.removeRange b.rope start stop).map
      (fun r => { b with rope := r, modified := true })
  else some b

/-- `Buffer::checkpoint(cursor_line, cursor_col)`. -/
def checkpoint (b : Buffer) (cursor_line cursor_col : Nat) : Buffer :=
  { b with history := b.history.record b.rope cursor_line cursor_col }

/-- `Buffer::undo(cursor_line, cursor_col)`: on success installs the
returned content, sets `modified`, and returns the snapshot cursor. -/
def undo (b : Buffer) (cursor_line cursor_col : Nat) :
    Option (Nat × Nat) × Buffer :=
  match b.history.undo b.rope cursor_line cursor_col with
  | (some (content, l, c), h') =>
      (some (l, c), { b with rope := content, modified := true, history := h' })
  | (none, h') => (none, { b with history := h' })

/-- `Buffer::redo()`. -/
def redo (b : Buffer) : Option (Nat × Nat) × Buffer :=
  match b.history.redo with
  | (some (content, l, c), h') =>
      (some (l, c), { b with rope := content, modified := true, history := h' })
  | (none, h') => (none, { b with history := h' })

/-- `Buffer::can_undo()`. -/
def can_undo (b : Buffer) : Bool := b.history.can_undo

/-- `Buffer::delete_line(line)`: char-indexed removal of the whole line.
The computed bounds satisfy `start ≤ end ≤ len_chars`, so ropey's bounds
assertion cannot fire and the removal is written totally. -/
def delete_line (b : Buffer) (line : Nat) : Buffer :=
  if line ≥ b.line_count then b
  else
    let start := Rope.lineToChar b.rope line
    let stop := if line + 1 < b.line_count then Rope.lineToChar b.rope (line + 1)
                else Rope.lenChars b.rope
    if start < stop then
      { b with rope := b.rope.take start ++ b.rope.drop stop, modified := true }
    else b

/-- Rust `char::is_whitespace`: the Unicode `White_Space` property, written out by code point. -/
def rustIsWhitespace (c : Char) : Bool :=
  let n := c.toNat
  (0x09 <= n && n <= 0x0D) || n == 0x20 || n == 0x85 || n == 0xA0 ||
  n == 0x1680 || (0x2000 <= n && n <= 0x200A) || n == 0x2028 || n == 0x2029 ||
  n == 0x202F || n == 0x205F || n == 0x3000

/-- Rust `str::trim_end`: drop trailing whitespace. -/
def trimEnd (l : List Char) : List Char :=
  (l.reverse.dropWhile rustIsWhitespace).reverse

/-- `Buffer::join_lines(line)`: removes the newline between lines `line`
and `line+1`; then re-reads the joined line, trims the end, and unless the
trimmed text is empty or ends with a space, inserts `' '` at
`line_to_char(line) + trimmed.len()` (`trimmed.len()` is a *byte* length in
Rust).  `none` models ropey's panic when that mixed-unit position exceeds
the char count. -/
def join_lines (b : Buffer) (line : Nat) : Option Buffer :=
  if line + 1 ≥ b.line_count then some b
  else
    let next_line_start := Rope.lineToChar b.rope (line + 1)
    let newline_pos := next_line_start - 1
    match Rope.removeRange b.rope newline_pos next_line_start with
    | none => none
    | some r1 =>
        let current_line := Rope.lineAt r1 line
        let trimmed := trimEnd current_line
        if trimmed ≠ [] ∧ trimmed.getLast? ≠ some ' ' then
          let insert_pos := Rope.lineToChar r1 line + Rope.lenBytes trimmed
          match Rope.insertAt r1 insert_pos [' '] with
          | none => none
          | some r2 => some { b with rope := r2, modified := true }
        else some { b with rope := r1, modified := true }

end Buffer

/-! ## Registers (`src/register.rs`) -/

/-- The type of content stored in a register (`enum RegisterContent`). -/
inductive RegisterContent where
  | Chars (s : List Char)
  | Lines (s : List Char)
  | Block (lines : List (List Char))
deriving DecidableEq, Repr

/-- The register bank (`struct Registers`).  The `HashMap` of named
registers is modelled as an association list; `numbered` is the length-10
`[Option<RegisterContent>; 10]` array. -/
structure Registers where
  named : List (Char × RegisterContent)
  unnamed : Option RegisterContent
  small_delete : Option RegisterContent
  numbered : List (Option RegisterContent)
deriving DecidableEq, Repr

namespace Registers

/-- `Registers::new()`. -/
def new : Registers :=
  { named := [], unnamed := none, small_delete := none
    numbered := List.replicate 10 none }

/-- `Registers::yank(content)`: numbered slot `0` and the unnamed slot. -/
def yank (r : Registers) (content : RegisterContent) : Registers :=
  { r with numbered := r.numbered.set 0 (some content)
           unnamed := some content }

/-- One iteration of the shift loop in `Registers::delete`:
`numbered[i+1] = numbered[i].take()`. -/
def shiftStep (n : List (Option RegisterContent)) (i : Nat) :
    List (Option RegisterContent) :=
  let v := n.getD i none
  (n.set (i + 1) v).set i none

/-- `Registers::delete(content)`: a char-wise content without a newline is
a small delete and goes to the dash register; otherwise the numbered slots
`1..9` shift down (`for i in (1..9).rev()`) and slot `1` takes the new
content.  The unnamed register is always updated. -/
def delete (r : Registers) (content : RegisterContent) : Registers :=
  let is_small : Bool :=
    match content with
    | .Chars s => !s.contains '\n'
    | _ => false
  if is_small then
    { r with small_delete := some content, unnamed := some content }
  else
    let shifted := [8, 7, 6, 5, 4, 3, 2, 1].foldl shiftStep r.numbered
    { r with numbered := shifted.set 1 (some content)
             unnamed := some content }

/-- `Registers::get_named(name)`: case-insensitive lookup. -/
def get_named (r : Registers) (name : Char) : Option RegisterContent :=
  (r.named.lookup name.toLower)

/-- `Registers::get(register)`. -/
def get (r : Registers) (register : Char) : Option RegisterContent :=
  if register = '"' then r.unnamed
  else if '0' ≤ register ∧ register ≤ '9' then
    r.numbered.getD (register.toNat - '0'.toNat) none
  else if register = '-' then r.small_delete
  else if ('a' ≤ register ∧ register ≤ 'z') ∨
          ('A' ≤ register ∧ register ≤ 'Z') then r.get_named register
  else none

end Registers

/-! ## Search (`src/search.rs`) -/

/-- `enum SearchDirection`. -/
inductive SearchDirection where
  | Forward
  | Backward
deriving DecidableEq, Repr

/-- A single search match (`struct Match`). -/
structure SMatch where
  line : Nat
  start_col : Nat
  end_col : Nat
deriving DecidableEq, Repr

/-- Search state (`struct Search`); the field `smatches` embeds the
source's `matches` vector (that identifier is reserved in Lean). -/
structure Search where
  pattern : List Char
  direction : SearchDirection
  smatches : List SMatch
  current_match : Option Nat
  case_sensitive : Bool
deriving DecidableEq, Repr

/-- Cursor position (`struct Cursor` in `src/cursor.rs`). -/
structure Cursor where
  line : Nat
  col : Nat
  sticky_col : Nat
deriving DecidableEq, Repr

namespace Cursor

/-- `Cursor::new()`. -/
def new : Cursor := ⟨0, 0, 0⟩

/-- `Cursor::move_left(buffer)`. -/
def move_left (cur : Cursor) (buffer : Buffer) : Cursor :=
  let cur :=
    if cur.col > 0 then { cur with col := cur.col - 1 }
    else if cur.line > 0 then
      { cur with line := cur.line - 1
                 col := buffer.line_len (cur.line - 1) }
    else cur
  { cur with sticky_col := cur.col }

/-- `Cursor::clamp(buffer)`. -/
def clamp (cur : Cursor) (buffer : Buffer) : Cursor :=
  let line_count := buffer.line_count
  if line_count = 0 then { cur with line := 0, col := 0 }
  else
    let line := min cur.line (line_count - 1)
    { cur with line := line, col := min cur.col (buffer.line_len line) }

end Cursor

namespace Search

/-- `Search::new()`. -/
def new : Search :=
  { pattern := [], direction := .Forward, smatches := []
    current_match := none, case_sensitive := false }

/-- `Iterator::position(pred)` on a list: index of the first element
satisfying the predicate. -/
def positionIdx : List SMatch → (SMatch → Bool) → Option Nat
  | [], _ => none
  | m :: rest, p =>
      if p m then some 0 else (positionIdx rest p).map (· + 1)

/-- `Iterator::rposition(pred)` on a list: index of the last element
satisfying the predicate. -/
def rpositionIdx (l : List SMatch) (p : SMatch → Bool) : Option Nat :=
  match positionIdx l.reverse p with
  | some j => some (l.length - 1 - j)
  | none => none

/-- `Search::next_match(cursor, buffer)`: with a non-empty match list,
forward picks the first match strictly after `(cursor.line, cursor.col)`
in the stored (document) order — `m.line > line || (m.line == line &&
m.start_col > col)` — falling back to index `0`; backward picks the last
match strictly before the cursor, falling back to the last index.  The
chosen index is stored in `current_match`.  The `buffer` argument is
unused, as in the source.  The final indexing `self.matches[idx]` is in
range by construction, so it is modelled with `getD`. -/
def next_match (s : Search) (cursor : Cursor) (_buffer : Buffer) :
    Option SMatch × Search :=
  if s.smatches.isEmpty then (none, s)
  else
    let cursor_line := cursor.line
    let cursor_col := cursor.col
    let next_idx : Option Nat :=
      match s.direction with
      | .Forward =>
          match positionIdx s.smatches (fun m =>
              m.line > cursor_line ||
              (m.line == cursor_line && m.start_col > cursor_col)) with
          | some i => some i
          | none => some 0
      | .Backward =>
          match rpositionIdx s.smatches (fun m =>
              m.line < cursor_line ||
              (m.line == cursor_line && m.start_col < cursor_col)) with
          | some i => some i
          | none => some (s.smatches.length - 1)
    match next_idx with
    | some idx =>
        (some (s.smatches.getD idx ⟨0, 0, 0⟩),
         { s with current_match := some idx })
    | none => (none, s)

end Search

/-! ## Editor normal mode (`src/editor.rs`)

The editor state is restricted to the components `handle_normal_mode`
touches for the keys modelled below; the key domain is restricted to the
plain (modifier-free) printable keys `d`, `y`, `;` and `h`, each embedded
exactly as its source match arm. -/

/-- The modelled subset of normal-mode keys (plain `KeyCode::Char` events
with no modifiers). -/
inductive NKey where
  | d
  | y
  | semicolon
  | h
deriving DecidableEq, Repr

/-- The slice of `struct Editor` used by the modelled normal-mode keys. -/
structure EditorSt where
  buffer : Buffer
  cursor : Cursor
  registers : Registers
  pending_op : Option Char
  last_find : Option (Char × Bool)
  numeric_pfx : List Char
  message : Option String
  scroll_offset : Nat
  viewport_height : Nat
deriving DecidableEq, Repr

namespace EditorSt

/-- `"...".parse::<usize>().unwrap_or(1)` on a digit string: a value that
overflows `usize` (64-bit) falls back to `1`. -/
def parseUsizeOr1 (digits : List Char) : Nat :=
  let v := digits.foldl (fun acc c => acc * 10 + (c.toNat - '0'.toNat)) 0
  if v < 2 ^ 64 then v else 1

/-- The numeric-count read used by the motion arms: `1` when the prefix
buffer is empty. -/
def motionCount (st : EditorSt) : Nat :=
  if st.numeric_pfx.isEmpty then 1 else parseUsizeOr1 st.numeric_pfx

/-- `Editor::find_char_on_line(target, forward)`: scans the current line
right of the cursor (forward) or left of it (backward) for `target` and
moves the cursor column to the first hit; no-op when absent. -/
def find_char_on_line (st : EditorSt) (target : Char) (forward : Bool) :
    EditorSt :=
  let chars := st.buffer.line st.cursor.line
  if forward then
    match (chars.drop (st.cursor.col + 1)).findIdx? (fun c => c = target) with
    | some j =>
        { st with cursor := { st.cursor with col := st.cursor.col + 1 + j } }
    | none => st
  else
    match (chars.take st.cursor.col).reverse.findIdx? (fun c => c = target) with
    | some j =>
        { st with cursor := { st.cursor with col := st.cursor.col - 1 - j } }
    | none => st

/-- `Editor::ensure_cursor_visible()` (margin 3). -/
def ensure_cursor_visible (st : EditorSt) : EditorSt :=
  let margin := 3
  if st.cursor.line < st.scroll_offset + margin then
    { st with scroll_offset := st.cursor.line - margin }
  else if st.cursor.line ≥ st.scroll_offset + st.viewport_height - margin then
    { st with scroll_offset := st.cursor.line - (st.viewport_height - margin - 1) }
  else st

/-- The `dd` body (the `pending_op == Some('d')` branch of the
`KeyCode::Char('d')` arm): checkpoint, read the line, store it line-wise in
the registers, delete the line, clamp the cursor, adjust the scroll, set
the message and clear the pending operator. -/
def execDeleteLine (st : EditorSt) : EditorSt :=
  let b := st.buffer.checkpoint st.cursor.line st.cursor.col
  let line := b.line st.cursor.line
  let content := if line.getLast? = some '\n' then line else line ++ ['\n']
  let regs := st.registers.delete (.Lines content)
  let b := b.delete_line st.cursor.line
  let cur := st.cursor.clamp b
  let st := { st with buffer := b, registers := regs, cursor := cur }
  let st := ensure_cursor_visible st
  { st with message := some "1 line deleted", pending_op := none }

/-- The `yy` body (the `pending_op == Some('y')` branch of the
`KeyCode::Char('y')` arm). -/
def execYankLine (st : EditorSt) : EditorSt :=
  let line := st.buffer.line st.cursor.line
  let content := if line.getLast? = some '\n' then line else line ++ ['\n']
  let regs := st.registers.yank (.Lines content)
  { st with registers := regs, message := some "1 line yanked"
            pending_op := none }

/-- `Editor::handle_normal_mode` restricted to the keys of `NKey`.  The
pending-`r` and pending-`f`/`F` layers come first, consuming the key (for
these printable keys) and clearing the pending state exactly as in the
source; then the main dispatch. -/
def handleNormal (st : EditorSt) (key : NKey) : EditorSt :=
  if st.pending_op = some 'r' then
    -- pending replace: a printable key replaces the grapheme at the
    -- cursor; for the claims only the pending-state effect matters, but
    -- the edit is carried out faithfully for the modelled keys.
    let keyChar : Char := match key with
      | .d => 'd' | .y => 'y' | .semicolon => ';' | .h => 'h'
    let st :=
      if st.cursor.col < st.buffer.line_len st.cursor.line then
        let b := st.buffer.checkpoint st.cursor.line st.cursor.col
        -- byte_offset / delete / insert of the replacement char: the
        -- cursor is inside the line, so the char-indexed ops are in
        -- range; modelled via the total line-local replacement.
        let pos := Rope.lineToChar b.rope st.cursor.line + st.cursor.col
        { st with buffer :=
            { b with rope := b.rope.take pos ++ [keyChar] ++ b.rope.drop (pos + 1)
                     modified := true } }
      else { st with buffer := st.buffer.checkpoint st.cursor.line st.cursor.col }
    { st with pending_op := none }
  else if st.pending_op = some 'f' ∨ st.pending_op = some 'F' then
    let keyChar : Char := match key with
      | .d => 'd' | .y => 'y' | .semicolon => ';' | .h => 'h'
    let forward := st.pending_op = some 'f'
    let st := { st with last_find := some (keyChar, forward) }
    let st := st.find_char_on_line keyChar forward
    { st with pending_op := none }
  else
    match key with
    | .h =>
        let count := st.motionCount
        let cur := Nat.rec st.cursor
          (fun _ c => c.move_left st.buffer) count
        { st with cursor := cur, numeric_pfx := [] }
    | .semicolon =>
        match st.last_find with
        | some (c, forward) => st.find_char_on_line c forward
        | none => st
    | .y =>
        if st.pending_op = some 'y' then execYankLine st
        else { st with pending_op := some 'y' }
    | .d =>
        if st.pending_op = some 'd' then execDeleteLine st
        else { st with pending_op := some 'd' }

end EditorSt

/-! ## Definitions supporting the claims -/

/-- A buffer holding the given content with no file path, as produced by
creating a buffer over that text (cf. `Buffer::new` / `Buffer::from_file`
minus the path). -/
def bufferOfContent (s : String) : Buffer :=
  { rope := s.data, file_path := none, modified := false
    history := History.new.init s.data 0 0 }

/-- Modelled from the claim's words, for comparison with `Buffer.delete`:
a delete whose `end` is clamped to the content length and whose `start` is
clamped to `end`, a no-op when `start ≥ end`. -/
def deleteClampedSpec (b : Buffer) (start stop : Nat) : Buffer :=
  let stop' := min stop (Rope.lenBytes b.rope)
  let start' := min start stop'
  if start' ≥ stop' then b
  else { b with rope := b.rope.take start' ++ b.rope.drop stop'
                modified := true }

/-- Modelled from the claim's words, for comparison with
`Search.next_match`: the first match in stored (document) order whose
position is *at or after* the cursor, wrapping to the first match of the
document when none is. -/
def specNearestForwardAtOrAfter (ms : List SMatch) (cl cc : Nat) :
    Option SMatch :=
  match ms.find? (fun m => m.line > cl || (m.line == cl && m.start_col ≥ cc)) with
  | some m => some m
  | none => ms.head?

/-- The first match in stored order strictly after the cursor in
(line, column) order, wrapping to the first stored match when none is: the
value-level description of the forward branch of `Search.next_match`. -/
def specNearestForwardStrict (ms : List SMatch) (cl cc : Nat) :
    Option SMatch :=
  match ms.find? (fun m => m.line > cl || (m.line == cl && m.start_col > cc)) with
  | some m => some m
  | none => ms.head?

/-- A search state holding the given forward-direction match list. -/
def searchWith (ms : List SMatch) : Search :=
  { Search.new with smatches := ms }

/-- One `History` operation, for quantifying over operation sequences. -/
inductive HOp where
  | record (content : Rope) (l c : Nat)
  | undo (current : Rope) (l c : Nat)
  | redo
deriving DecidableEq, Repr

/-- Apply one operation to a history (dropping the returned value). -/
def applyOp (h : History) : HOp → History
  | .record content l c => h.record content l c
  | .undo current l c => (h.undo current l c).2
  | .redo => h.redo.2

/-- Apply a sequence of operations. -/
def applyOps (h : History) (ops : List HOp) : History :=
  ops.foldl applyOp h

/-- The one-char content of the i-th recorded state in the eviction
scenario; consecutive contents differ, so every `record` pushes. -/
def altChar (i : Nat) : Char := if i % 2 = 0 then 'a' else 'b'

/-- 1000 recorded states with alternating one-char contents. -/
def evictOps : List HOp :=
  (List.range MAX_HISTORY_SIZE).map (fun i => HOp.record [altChar i] 0 0)

/-- The snapshots the first `k` records of the eviction scenario push. -/
def altStack (k : Nat) : List Snapshot :=
  (List.range k).map (fun i => ⟨[altChar i], 0, 0⟩)

/-- The history after `init` on the empty content followed by the 1000
records of `evictOps`. -/
def evictedHistory : History :=
  applyOps (History.new.init [] 0 0) evictOps

/-- The history of a buffer whose text went from `""` (the base) through
an edit to `"a"`: `init("")` then `record("a", (0,1))` — the checkpoint
the second edit takes before turning the text into `"ab"`. -/
def historyScenario : History :=
  (History.new.init [] 0 0).record ['a'] 0 1

/-- A buffer in the same situation: content `"ab"`, with the base snapshot
`""` and the recorded snapshot `"a"` on the undo stack. -/
def bufferScenario : Buffer :=
  { rope := ['a', 'b'], file_path := none, modified := true
    history := historyScenario }

/-- The i-th line-wise deletion content used in the register scenario. -/
def numberedLines (i : Nat) : RegisterContent :=
  .Lines [Char.ofNat ('0'.toNat + i % 10), '\n']

/-- Ten consecutive non-small (line-wise) deletes starting from empty
registers. -/
def tenDeletes : Registers :=
  (List.range 10).foldl (fun r i => r.delete (numberedLines (i + 1)))
    Registers.new

/-- A concrete starting editor state: three lines, cursor at the origin,
nothing pending. -/
def editorStart : EditorSt :=
  { buffer := bufferOfContent "a\nb\nc", cursor := Cursor.new
    registers := Registers.new, pending_op := none, last_find := none
    numeric_pfx := [], message := none, scroll_offset := 0
    viewport_height := 24 }

/-- `editorStart` with the `d` operator pending. -/
def editorPendingD : EditorSt :=
  { editorStart with pending_op := some 'd' }

/-! ## Helper lemmas -/

/-- Every char occupies at least one byte, so a rope has at least as many
bytes as chars. -/
theorem length_le_lenBytes (r : Rope) : r.length ≤ Rope.lenBytes r := by
  induction r with
  | nil => simp [Rope.lenBytes]
  | cons c rest ih =>
      simp only [Rope.lenBytes, List.map_cons, List.sum_cons, List.length_cons]
      simp only [Rope.lenBytes] at ih
      have := Char.utf8Size_pos c
      omega

/-- On single-byte (ASCII) content the byte length is the char count. -/
theorem lenBytes_of_ascii (r : Rope) (h : ∀ c ∈ r, c.utf8Size = 1) :
    Rope.lenBytes r = r.length := by
  induction r with
  | nil => simp [Rope.lenBytes]
  | cons c rest ih =>
      simp only [Rope.lenBytes, List.map_cons, List.sum_cons, List.length_cons]
      rw [h c (by simp)]
      have := ih (fun x hx => h x (by simp [hx]))
      simp only [Rope.lenBytes] at this
      omega

/-- Byte length is additive over append. -/
theorem lenBytes_append (r₁ r₂ : Rope) :
    Rope.lenBytes (r₁ ++ r₂) = Rope.lenBytes r₁ + Rope.lenBytes r₂ := by
  simp [Rope.lenBytes]

/-! ## Claim theorems -/

set_option maxRecDepth 10000
set_option maxHeartbeats 1000000

/-- C10: calling `save()` on a buffer that has no associated file path
performs no write and returns `Ok`, leaving both the content and the
modified flag unchanged. -/
theorem C10_save_without_path_is_noop_ok (b : Buffer) (writeOk : Bool)
    (h : b.file_path = none) : b.save writeOk = (SaveResult.ok, b) := by
  simp [Buffer.save, h]

/-- C10 witness: a concrete modified path-less buffer still reports
modified after a successful `save()`. -/
theorem C10_save_without_path_witness :
    ({ rope := "x".data, file_path := none, modified := true
       history := History.new } : Buffer).save true
      = (SaveResult.ok,
         { rope := "x".data, file_path := none, modified := true
           history := History.new }) :=
  C10_save_without_path_is_noop_ok _ true rfl

/-- C9: whenever `Buffer::undo` or `Buffer::redo` returns a restored
state, the buffer's modified flag is true afterwards — the flag is set
unconditionally on success, even when the restored content is identical
to the content at the last successful save. -/
theorem C9_undo_redo_set_modified (b : Buffer) (l c : Nat) :
    ((b.undo l c).1.isSome → (b.undo l c).2.modified = true) ∧
    ((b.redo).1.isSome → (b.redo).2.modified = true) := by
  constructor
  · rcases hu : b.history.undo b.rope l c with ⟨o, h2⟩
    rcases o with _ | ⟨⟨content, l2, c2⟩⟩ <;> simp [Buffer.undo, hu]
  · rcases hr : b.history.redo with ⟨o, h2⟩
    rcases o with _ | ⟨⟨content, l2, c2⟩⟩ <;> simp [Buffer.redo, hr]

/-- C9 witness: a concrete buffer on which undo succeeds (setting the
flag), and its successor on which redo succeeds. -/
theorem C9_undo_redo_witness :
    ((bufferScenario.undo 0 2).1.isSome = true ∧
     (bufferScenario.undo 0 2).2.modified = true) ∧
    (((bufferScenario.undo 0 2).2.redo).1.isSome = true ∧
     ((bufferScenario.undo 0 2).2.redo).2.modified = true) :=
  ⟨⟨by decide, (C9_undo_redo_set_modified bufferScenario 0 2).1 (by decide)⟩,
   ⟨by decide,
    (C9_undo_redo_set_modified (bufferScenario.undo 0 2).2 0 0).2
      (by decide)⟩⟩

/-- C2 counterexample: `delete(1, 5)` on `"abc"` is a no-op — the code
rejects an `end` beyond the content length instead of clamping it — while
the delete the claim describes (with `end` clamped to 3) would leave
`"a"`. -/
theorem C2_counterexample :
    (bufferOfContent "abc").delete 1 5 = some (bufferOfContent "abc") ∧
    (deleteClampedSpec (bufferOfContent "abc") 1 5).rope = "a".data ∧
    (bufferOfContent "abc").rope ≠ "a".data := by decide

/-- C2 (amended): `delete(start, end)` does not clamp: it is a no-op,
returning without panic, whenever `start ≥ end` or `end` exceeds the
content byte length; and on single-byte (ASCII) content the call never
panics. -/
theorem C2_delete_no_clamp_no_panic (b : Buffer) (start stop : Nat) :
    (¬(start < stop ∧ stop ≤ Rope.lenBytes b.rope) →
       b.delete start stop = some b) ∧
    ((∀ ch ∈ b.rope, ch.utf8Size = 1) → (b.delete start stop).isSome) := by
  constructor
  · intro h
    simp [Buffer.delete, h]
  · intro h
    unfold Buffer.delete
    by_cases hg : start < stop ∧ stop ≤ Rope.lenBytes b.rope
    · rw [if_pos hg]
      have hb := lenBytes_of_ascii b.rope h
      unfold Rope.removeRange
      rw [if_pos ⟨Nat.le_of_lt hg.1, by omega⟩]
      simp
    · rw [if_neg hg]
      simp

/-- C2 witness: the no-op branch at `start ≥ end` and the panic-free
deletion on ASCII content, at concrete inputs. -/
theorem C2_delete_witness :
    (bufferOfContent "abc").delete 2 1 = some (bufferOfContent "abc") ∧
    ((bufferOfContent "abc").delete 1 2).isSome = true :=
  ⟨(C2_delete_no_clamp_no_panic (bufferOfContent "abc") 2 1).1 (by decide),
   (C2_delete_no_clamp_no_panic (bufferOfContent "abc") 1 2).2 (by decide)⟩

/-- C3 counterexample: the claim's `len(s)` is a byte count but ropey
removes a char range, so for the two-byte char `'é'`: `insert(0, "é")` on
`"xy"` followed by `delete(0, 0 + len("é"))` removes two chars and leaves
`"y"`, not the original `"xy"`. -/
theorem C3_counterexample :
    (((bufferOfContent "xy").insert 0 ['é']).bind
        (fun b2 => b2.delete 0 (0 + Rope.lenBytes ['é']))).map Buffer.rope
      = some "y".data ∧ "y".data ≠ "xy".data := by decide

/-- C3 (amended): with the inserted text's length measured in chars (for
ASCII text this equals the byte length), the round trip holds: for every
buffer content, every position `p` up to the content length, and every
string `s`, `insert(p, s)` followed by `delete(p, p + s.length)` restores
the original content exactly. -/
theorem C3_insert_delete_roundtrip (b : Buffer) (p : Nat) (s : List Char)
    (h : p ≤ b.rope.length) :
    ((b.insert p s).bind (fun b2 => b2.delete p (p + s.length))).map
        Buffer.rope = some b.rope := by
  unfold Buffer.insert Rope.insertAt
  rw [if_pos h]
  simp only [Option.map_some', Option.some_bind]
  rcases Nat.eq_zero_or_pos s.length with hs | hs
  · have hsnil : s = [] := List.length_eq_zero.mp hs
    subst hsnil
    simp [Buffer.delete, List.take_append_drop]
  · have hl1 : (b.rope.take p).length = p := by
      simp [List.length_take]
      omega
    have B1 : p ≤ Rope.lenBytes (b.rope.take p) := by
      have := length_le_lenBytes (b.rope.take p)
      omega
    have B2 : s.length ≤ Rope.lenBytes s := length_le_lenBytes s
    have hbytes :
        Rope.lenBytes (b.rope.take p ++ s ++ b.rope.drop p)
          = Rope.lenBytes (b.rope.take p) + Rope.lenBytes s
              + Rope.lenBytes (b.rope.drop p) := by
      rw [List.append_assoc, lenBytes_append, lenBytes_append]
      omega
    have hguard : p < p + s.length ∧
        p + s.length
          ≤ Rope.lenBytes (b.rope.take p ++ s ++ b.rope.drop p) := by
      constructor
      · omega
      · rw [hbytes]; omega
    unfold Buffer.delete
    rw [if_pos hguard]
    have hvalid : p ≤ p + s.length ∧
        p + s.length ≤ (b.rope.take p ++ s ++ b.rope.drop p).length := by
      constructor
      · omega
      · simp [List.length_append, hl1]
    unfold Rope.removeRange
    rw [if_pos hvalid]
    simp only [Option.map_some']
    have htake :
        (b.rope.take p ++ s ++ b.rope.drop p).take p = b.rope.take p := by
      rw [List.append_assoc]
      exact List.take_left' hl1
    have hdrop :
        (b.rope.take p ++ s ++ b.rope.drop p).drop (p + s.length)
          = b.rope.drop p :=
      List.drop_left' (by simp [hl1])
    rw [htake, hdrop, List.take_append_drop]

/-- C3 witness: the round trip at a concrete ASCII input. -/
theorem C3_roundtrip_witness :
    (((bufferOfContent "xy").insert 1 ['a', 'b']).bind
        (fun b2 => b2.delete 1 (1 + (['a', 'b'] : List Char).length))).map
        Buffer.rope = some "xy".data :=
  C3_insert_delete_roundtrip (bufferOfContent "xy") 1 ['a', 'b'] (by decide)

/-- C6: starting from empty registers, ten consecutive non-small deletes
leave numbered slots 1-9 holding the nine most recent deletions (slot 1
the newest, the oldest discarded) and never touch the dash register; a
small delete (char-wise content without a newline) stores into the dash
register only, leaving every numbered slot unchanged; and every delete
updates the unnamed register. -/
theorem C6_registers_delete (r : Registers) (s : List Char)
    (content : RegisterContent) :
    (tenDeletes.numbered =
       [none, some (numberedLines 10), some (numberedLines 9),
        some (numberedLines 8), some (numberedLines 7),
        some (numberedLines 6), some (numberedLines 5),
        some (numberedLines 4), some (numberedLines 3),
        some (numberedLines 2)] ∧
     tenDeletes.small_delete = none) ∧
    (s.contains '\n' = false →
       (r.delete (.Chars s)).numbered = r.numbered ∧
       (r.delete (.Chars s)).small_delete = some (.Chars s)) ∧
    ((r.delete content).unnamed = some content) := by
  refine ⟨by decide, ?_, ?_⟩
  · intro hs
    have hs' : '\n' ∉ s := by simpa using hs
    simp [Registers.delete, hs']
  · rcases content with cs | cs | cls
    · by_cases hc : '\n' ∈ cs <;> simp [Registers.delete, hc]
    · simp [Registers.delete]
    · simp [Registers.delete]

/-- C6 witness: a concrete small delete leaves the numbered slots alone
and fills the dash register. -/
theorem C6_registers_witness :
    (Registers.new.delete (.Chars ['x'])).numbered = Registers.new.numbered ∧
    (Registers.new.delete (.Chars ['x'])).small_delete
      = some (.Chars ['x']) :=
  (C6_registers_delete Registers.new ['x'] (.Chars ['x'])).2.1 (by decide)

/-- C8 (code bug): `join_lines(0)` on `"foo\nbar"` yields `"foobar "` —
the space-insertion position is computed from the trimmed *joined* line,
so the space lands at the end of the merged line instead of at the join
point, contradicting the code's own comment ("after old line content")
and the vim-style join the claim describes, which gives `"foo bar"`. -/
theorem C8_join_lines_eval :
    ((bufferOfContent "foo\nbar").join_lines 0).map Buffer.rope
      = some "foobar ".data ∧ "foobar ".data ≠ "foo bar".data := by decide

/-- C1 (code bug): with the base `""` and the recorded snapshot
`("a", (0,1))` on the undo stack — the checkpoint taken, per `record`'s
record-before-change contract, before the edit that produced the current
text `"ab"` — `can_undo` holds, yet `undo` returns the base `("", 0, 0)`:
it pops and silently discards the snapshot `("a", (0,1))` that the claim
says it restores.  The redo half of the claim does hold: redo right after
this undo returns `("ab", (0,2))`, the state current when undo was
called. -/
theorem C1_undo_skips_latest_snapshot :
    historyScenario.can_undo = true ∧
    historyScenario.undo_stack.getLast? = some ⟨['a'], 0, 1⟩ ∧
    (historyScenario.undo ['a', 'b'] 0 2).1 = some ([], 0, 0) ∧
    ((historyScenario.undo ['a', 'b'] 0 2).2.redo).1
      = some (['a', 'b'], 0, 2) := by decide

/-! ## Claim C5 -/

/-- A successful `Search.positionIdx` names the first element satisfying the
predicate. -/
theorem Search.positionIdx_some_find (l : List SMatch) (p : SMatch → Bool) :
    ∀ i, Search.positionIdx l p = some i → some (l.getD i ⟨0, 0, 0⟩) = l.find? p := by
  induction l with
  | nil => intro i hi; simp [Search.positionIdx] at hi
  | cons m rest ih =>
      intro i hi
      by_cases hm : p m
      · simp [Search.positionIdx, hm] at hi
        subst hi
        simp [List.find?_cons_of_pos _ hm]
      · simp [Search.positionIdx, hm] at hi
        rcases hi with ⟨j, hj, hji⟩
        subst hji
        rw [List.find?_cons_of_neg _ hm]
        simpa using ih j hj

/-- A failed `Search.positionIdx` means `find?` fails as well. -/
theorem Search.positionIdx_none_find (l : List SMatch) (p : SMatch → Bool)
    (h : Search.positionIdx l p = none) : l.find? p = none := by
  induction l with
  | nil => rfl
  | cons m rest ih =>
      by_cases hm : p m
      · simp [Search.positionIdx, hm] at h
      · simp [Search.positionIdx, hm] at h
        rw [List.find?_cons_of_neg _ hm]
        exact ih h

/-- C5 counterexample: with matches at columns 0 and 5 of line 0 and the
cursor on the match at `(0,0)`, the claimed at-or-after selection picks
the match at the cursor, but `next_match` (which compares strictly) skips
it and picks `(0,5)`. -/
theorem C5_counterexample :
    ((searchWith [⟨0, 0, 1⟩, ⟨0, 5, 6⟩]).next_match ⟨0, 0, 0⟩ Buffer.new).1
      = some ⟨0, 5, 6⟩ ∧
    specNearestForwardAtOrAfter [⟨0, 0, 1⟩, ⟨0, 5, 6⟩] 0 0
      = some ⟨0, 0, 1⟩ ∧
    (⟨0, 5, 6⟩ : SMatch) ≠ ⟨0, 0, 1⟩ := by decide

/-- C5 (amended): with a non-empty match list and the forward direction,
`next_match` picks the first match in stored (document) order *strictly*
after the cursor position (line, then start column), wrapping to the
first match of the document when no match is strictly after the cursor. -/
theorem C5_forward_picks_strictly_after (s : Search) (cursor : Cursor)
    (buffer : Buffer) (hdir : s.direction = .Forward) :
    (s.next_match cursor buffer).1
      = specNearestForwardStrict s.smatches cursor.line cursor.col := by
  by_cases he : s.smatches = []
  · simp [Search.next_match, specNearestForwardStrict, he]
  · have hne : s.smatches.isEmpty = false := by
      simpa [List.isEmpty_iff] using he
    unfold Search.next_match specNearestForwardStrict
    rw [hne, hdir]
    simp only [Bool.false_eq_true, if_false]
    rcases hpos : Search.positionIdx s.smatches
        (fun m => m.line > cursor.line ||
          (m.line == cursor.line && m.start_col > cursor.col)) with _ | i
    · rw [Search.positionIdx_none_find _ _ hpos]
      rcases List.exists_cons_of_ne_nil he with ⟨m, rest, hcons⟩
      rw [hcons]
      rfl
    · rw [← Search.positionIdx_some_find _ _ i hpos]

/-- C5 witness: the amended selection at a concrete search state. -/
theorem C5_forward_witness :
    ((searchWith [⟨0, 0, 1⟩]).next_match ⟨0, 0, 0⟩ Buffer.new).1
      = specNearestForwardStrict [⟨0, 0, 1⟩] 0 0 :=
  C5_forward_picks_strictly_after (searchWith [⟨0, 0, 1⟩]) ⟨0, 0, 0⟩
    Buffer.new rfl

/-! ## Claim C4 -/

/-- Applying one history operation never empties a non-empty undo stack. -/
theorem applyOp_len_ge_one (h : History) (op : HOp)
    (hlen : 1 ≤ h.undo_stack.length) :
    1 ≤ (applyOp h op).undo_stack.length := by
  cases op with
  | record content l c =>
      unfold applyOp History.record
      dsimp only
      split
      · exact hlen
      · dsimp only
        split <;> simp [List.length_dropLast, List.length_append] <;> omega
  | undo current l c =>
      unfold applyOp History.undo
      dsimp only
      split
      · exact hlen
      · rename_i hgt
        split <;> simp [List.length_dropLast] <;> omega
  | redo =>
      unfold applyOp History.redo
      rcases hr : h.redo_stack.getLast? with _ | snap <;>
        simp [hr, List.length_append] <;> omega

/-- Applying a sequence of history operations never empties a non-empty
undo stack. -/
theorem applyOps_len_ge_one (ops : List HOp) :
    ∀ h : History, 1 ≤ h.undo_stack.length →
      1 ≤ (applyOps h ops).undo_stack.length := by
  induction ops with
  | nil => intro h hl; exact hl
  | cons op rest ih =>
      intro h hl
      exact ih (applyOp h op) (applyOp_len_ge_one h op hl)

/-- Dropping the last element of a list with two or more elements keeps
its head. -/
theorem dropLast_head_of_two_le (l : List Snapshot) (h : 2 ≤ l.length) :
    l.dropLast.head? = l.head? := by
  match l, h with
  | a :: b :: t, _ => simp [List.dropLast]

/-- Appending at the end of a non-empty list keeps its head. -/
theorem append_singleton_head (l : List Snapshot) (x : Snapshot)
    (h : l ≠ []) : (l ++ [x]).head? = l.head? := by
  cases l with
  | nil => exact absurd rfl h
  | cons a t => rfl

/-- C4 (amended): after `init` the undo stack always holds at least one
snapshot under any sequence of `record`, `undo` and `redo`; `undo` and
`redo` never remove the bottom (base) snapshot; and `record` preserves it
as long as the stack is below the fixed capacity of 1000 — only the
capacity eviction (which removes the *oldest* entry) can discard the base
snapshot. -/
theorem C4_base_floor_and_capacity :
    (∀ (content : Rope) (l c : Nat) (ops : List HOp),
       1 ≤ (applyOps (History.new.init content l c) ops).undo_stack.length) ∧
    (∀ (h : History) (current : Rope) (l c : Nat), h.undo_stack ≠ [] →
       (h.undo current l c).2.undo_stack.head? = h.undo_stack.head? ∧
       h.redo.2.undo_stack.head? = h.undo_stack.head?) ∧
    (∀ (h : History) (content : Rope) (l c : Nat), h.undo_stack ≠ [] →
       h.undo_stack.length < MAX_HISTORY_SIZE →
       (h.record content l c).undo_stack.head? = h.undo_stack.head?) := by
  refine ⟨?_, ?_, ?_⟩
  · intro content l c ops
    exact applyOps_len_ge_one ops _ (by simp [History.init])
  · intro h current l c hne
    constructor
    · unfold History.undo
      dsimp only
      split
      · rfl
      · rename_i hgt
        split <;>
          · dsimp only
            exact dropLast_head_of_two_le _ (by omega)
    · unfold History.redo
      rcases hr : h.redo_stack.getLast? with _ | snap
      · rfl
      · dsimp only
        exact append_singleton_head _ _ hne
  · intro h content l c hne hlt
    unfold History.record
    dsimp only
    split
    · rfl
    · dsimp only
      rw [if_neg (by simp [List.length_append]; omega)]
      exact append_singleton_head _ _ hne

/-- C4 witness: the base-preserving parts at a concrete history. -/
theorem C4_base_floor_witness :
    ((historyScenario.undo ['a', 'b'] 0 2).2.undo_stack.head?
        = historyScenario.undo_stack.head? ∧
      historyScenario.redo.2.undo_stack.head?
        = historyScenario.undo_stack.head?) ∧
    (historyScenario.record ['a', 'b'] 0 2).undo_stack.head?
      = historyScenario.undo_stack.head? :=
  ⟨(C4_base_floor_and_capacity.2.1 historyScenario ['a', 'b'] 0 2
      (by decide)),
   (C4_base_floor_and_capacity.2.2 historyScenario ['a', 'b'] 0 2
      (by decide) (by decide))⟩

/-- The history after the first `k ≤ 999` records of the eviction
scenario: the base snapshot plus the `k` pushed snapshots, no eviction
yet. -/
theorem evict_prefix : ∀ k, k ≤ 999 →
    applyOps (History.new.init [] 0 0)
        ((List.range k).map (fun i => HOp.record [altChar i] 0 0))
      = { undo_stack := ⟨[], 0, 0⟩ :: altStack k
          redo_stack := []
          current_content := some (if k = 0 then [] else [altChar (k - 1)]) } := by
  intro k
  induction k with
  | zero => intro _; rfl
  | succ k ih =>
      intro hk
      rw [List.range_succ, List.map_append]
      unfold applyOps
      rw [List.foldl_append]
      have ihe := ih (by omega)
      unfold applyOps at ihe
      rw [ihe]
      rcases Nat.eq_zero_or_pos k with hk0 | hkpos
      · subst hk0
        decide
      · simp only [List.map_cons, List.map_nil, List.foldl_cons,
          List.foldl_nil]
        have hak : altChar k ≠ altChar (k - 1) := by
          unfold altChar
          rcases Nat.mod_two_eq_zero_or_one k with h2 | h2
          · rw [if_pos h2, if_neg (by omega)]
            decide
          · rw [if_neg (by omega), if_pos (by omega)]
            decide
        unfold applyOp History.record
        rw [if_neg (by omega)]
        dsimp only
        rw [if_neg (by simp [hak])]
        rw [if_neg (by simp [altStack, MAX_HISTORY_SIZE]; omega)]
        simp [altStack, List.range_succ, List.map_append]

/-- Unfolding one step of the eviction-scenario stack. -/
theorem altStack_succ (k : Nat) :
    altStack (k + 1) = altStack k ++ [⟨[altChar k], 0, 0⟩] := by
  simp [altStack, List.range_succ]

/-- The eviction scenario's final record exceeds the capacity and drops
the oldest stack entry — the base snapshot. -/
theorem evicted_eq :
    evictedHistory
      = { undo_stack := altStack 1000
          redo_stack := []
          current_content := some [altChar 999] } := by
  unfold evictedHistory evictOps
  rw [show MAX_HISTORY_SIZE = 999 + 1 from rfl, List.range_succ,
    List.map_append]
  unfold applyOps
  rw [List.foldl_append]
  have ihe := evict_prefix 999 (by omega)
  unfold applyOps at ihe
  rw [ihe]
  simp only [List.map_cons, List.map_nil, List.foldl_cons, List.foldl_nil]
  have hak : altChar 999 ≠ altChar (999 - 1) := by decide
  unfold applyOp History.record
  rw [if_neg (by omega)]
  dsimp only
  rw [if_neg (by simp [hak])]
  rw [if_pos (by simp [altStack, MAX_HISTORY_SIZE])]
  rw [show (1000 : Nat) = 999 + 1 from rfl, altStack_succ 999]
  rfl

set_option maxRecDepth 200000 in
/-- C4 counterexample: after 1000 recorded states the capacity eviction
has removed the base snapshot `("", (0,0))` pushed by `init` from the
undo stack (which still holds exactly 1000 snapshots). -/
theorem C4_counterexample :
    (⟨[], 0, 0⟩ : Snapshot) ∉ evictedHistory.undo_stack ∧
    evictedHistory.undo_stack.length = MAX_HISTORY_SIZE := by
  rw [evicted_eq]
  constructor
  · intro hmem
    rw [altStack] at hmem
    rcases List.mem_map.mp hmem with ⟨i, hir, heq⟩
    have : [altChar i] = [] := congrArg Snapshot.content heq
    exact absurd this (by simp)
  · unfold altStack MAX_HISTORY_SIZE
    rw [List.length_map, List.length_range]

/-! ## Claim C7 -/

/-- Moving the cursor with `find_char_on_line` never touches the pending
operator. -/
theorem find_char_pending (st : EditorSt) (c : Char) (f : Bool) :
    (st.find_char_on_line c f).pending_op = st.pending_op := by
  unfold EditorSt.find_char_on_line
  cases f <;> dsimp only <;> split <;> split <;> rfl

/-- C7 counterexample: from a three-line buffer, pressing `d` and then a
key other than `d` (here `;`) leaves the operator pending rather than
cancelling it, and a subsequent `d` still combines with the earlier
operator: the `dd` line-wise delete fires and removes line 0. -/
theorem C7_counterexample :
    (EditorSt.handleNormal (EditorSt.handleNormal editorStart .d)
        .semicolon).pending_op = some 'd' ∧
    (EditorSt.handleNormal (EditorSt.handleNormal
        (EditorSt.handleNormal editorStart .d) .semicolon) .d).buffer.rope
      = "b\nc".data := by decide

/-- C7 (amended): while the `d` operator is pending in normal mode,
pressing a key other than `d` does *not* cancel it: keys without their
own pending-state handling (`;`, `h`) leave the operator pending, a
different operator key (`y`) replaces it, and after such an intervening
key a later `d` still triggers the line-wise delete (message
"1 line deleted", pending operator consumed). -/
theorem C7_pending_operator_not_cancelled (st : EditorSt)
    (h : st.pending_op = some 'd') :
    (st.handleNormal .semicolon).pending_op = some 'd' ∧
    (st.handleNormal .h).pending_op = some 'd' ∧
    (st.handleNormal .y).pending_op = some 'y' ∧
    ((st.handleNormal .semicolon).handleNormal .d).message
      = some "1 line deleted" ∧
    ((st.handleNormal .semicolon).handleNormal .d).pending_op = none := by
  have hsemi : (st.handleNormal .semicolon).pending_op = some 'd' := by
    unfold EditorSt.handleNormal
    rw [if_neg (by simp [h]), if_neg (by simp [h])]
    dsimp only
    rcases hlf : st.last_find with _ | ⟨c2, f2⟩
    · exact h
    · rw [find_char_pending]
      exact h
  refine ⟨hsemi, ?_, ?_, ?_, ?_⟩
  · unfold EditorSt.handleNormal
    rw [if_neg (by simp [h]), if_neg (by simp [h])]
    exact h
  · unfold EditorSt.handleNormal
    rw [if_neg (by simp [h]), if_neg (by simp [h])]
    dsimp only
    rw [if_neg (by simp [h])]
  · generalize hst : st.handleNormal .semicolon = st' at hsemi ⊢
    unfold EditorSt.handleNormal
    rw [if_neg (by simp [hsemi]), if_neg (by simp [hsemi])]
    dsimp only
    rw [if_pos hsemi]
    rfl
  · generalize hst : st.handleNormal .semicolon = st' at hsemi ⊢
    unfold EditorSt.handleNormal
    rw [if_neg (by simp [hsemi]), if_neg (by simp [hsemi])]
    dsimp only
    rw [if_pos hsemi]
    rfl

/-- C7 witness: the amended behaviour at a concrete pending-`d` state. -/
theorem C7_pending_witness :
    (editorPendingD.handleNormal .semicolon).pending_op = some 'd' ∧
    (editorPendingD.handleNormal .h).pending_op = some 'd' ∧
    (editorPendingD.handleNormal .y).pending_op = some 'y' ∧
    ((editorPendingD.handleNormal .semicolon).handleNormal .d).message
      = some "1 line deleted" ∧
    ((editorPendingD.handleNormal .semicolon).handleNormal .d).pending_op
      = none :=
  C7_pending_operator_not_cancelled editorPendingD rfl

end Quirks

namespace Quirks

/-! ## Sanity checks of the rope model (scenarios from the spec). -/

example : Buffer.new.line_count = 1 := by decide

example :
    (Buffer.new.insert 0 ("Hello\nWorld".data)).map Buffer.line_count
      = some 2 := by decide

example :
    ((Buffer.new.insert 0 ("Hello World".data)).bind
        (fun b => b.delete 5 11)).map Buffer.rope
      = some ("Hello".data) := by decide

example : (Buffer.new.insert 0 ("Hello\nWorld".data)).map (fun b => b.line 0)
      = some ("Hello".data) := by decide

example : (Buffer.new.insert 0 ("Hello\nWorld".data)).map (fun b => b.line 1)
      = some ("World".data) := by decide

end Quirks
